import Mathlib

/-!
Shallow embedding of `tabbycat/adjfeedback/models.py`: the adjudicator-feedback
data model (questions, typed answer tables, feedback submissions) together with
its validation and derived-value helpers, and proofs of the specification's
claims about it.

Conventions of the embedding:
* nullable foreign keys / Python `None` become `Option`;
* code paths that raise become `Except String` (the string is the message),
  and an attribute access on `None` (Python `AttributeError`) becomes `none`
  or `Except.error`;
* numeric bounds (`min_value`, `max_value`) are modelled as integers, since
  every use in this module passes them through Python `int()` and the claims
  are about integer arithmetic; float-valued fields that are only carried
  around (scores, weights) are modelled as `ℚ`;
* Python `range(start, stop, step)` for a positive step is modelled by
  `pyRange` below.
-/

namespace Tabbycat

/-- The nine answer-type codes of `AnswerType` (TextChoices `bc`, `bs`, `i`,
`is`, `f`, `t`, `tl`, `ss`, `ms`). -/
inductive AnswerType
| BOOLEAN_CHECKBOX
| BOOLEAN_SELECT
| INTEGER_TEXTBOX
| INTEGER_SCALE
| FLOAT
| TEXT
| LONGTEXT
| SINGLE_SELECT
| MULTIPLE_SELECT
deriving DecidableEq, Fintype, Repr

/-- The five concrete answer tables (the subclasses of
`AdjudicatorFeedbackAnswer`: boolean, integer, float, string, array/many). -/
inductive AnswerClass
| BooleanAnswer
| IntegerAnswer
| FloatAnswer
| StringAnswer
| ManyAnswer
deriving DecidableEq, Fintype, Repr

/-- `AdjudicatorFeedbackQuestion.ANSWER_CLASSES`: the fixed dict mapping each
answer-type code to the answer table that stores it. -/
def ANSWER_CLASSES : AnswerType → AnswerClass
| .BOOLEAN_CHECKBOX => .BooleanAnswer
| .BOOLEAN_SELECT => .BooleanAnswer
| .INTEGER_TEXTBOX => .IntegerAnswer
| .INTEGER_SCALE => .IntegerAnswer
| .FLOAT => .FloatAnswer
| .TEXT => .StringAnswer
| .LONGTEXT => .StringAnswer
| .SINGLE_SELECT => .StringAnswer
| .MULTIPLE_SELECT => .ManyAnswer

/-- `AdjudicatorFeedbackQuestion.ANSWER_CLASSES_REVERSE`: the fixed dict
mapping each answer table to the list of answer-type codes it stores, with the
lists exactly as written in the source. -/
def ANSWER_CLASSES_REVERSE : AnswerClass → List AnswerType
| .StringAnswer => [.TEXT, .LONGTEXT, .SINGLE_SELECT]
| .ManyAnswer => [.MULTIPLE_SELECT]
| .IntegerAnswer => [.INTEGER_SCALE, .INTEGER_TEXTBOX]
| .FloatAnswer => [.FLOAT]
| .BooleanAnswer => [.BOOLEAN_SELECT, .BOOLEAN_CHECKBOX]

/-- The keys of the `ANSWER_CLASSES_REVERSE` dict in insertion order, which is
the iteration order of `ANSWER_CLASSES_REVERSE.keys()` in `get_answers`. -/
def ANSWER_CLASSES_REVERSE_keys : List AnswerClass :=
  [.StringAnswer, .ManyAnswer, .IntegerAnswer, .FloatAnswer, .BooleanAnswer]

/-- One feedback question (`BaseQuestion` / `AdjudicatorFeedbackQuestion`
fields that the behaviour under verification reads). -/
structure Question where
  text : String
  name : String
  reference : String
  seq : Int
  answer_type : AnswerType
  required : Bool
  min_value : Option Int
  max_value : Option Int
  choices : List String
  from_adj : Bool
  from_team : Bool
deriving DecidableEq, Repr

/-- `AdjudicatorFeedbackQuestion.answer_type_class`: dict lookup
`ANSWER_CLASSES[self.answer_type]`. -/
def Question.answer_type_class (q : Question) : AnswerClass :=
  ANSWER_CLASSES q.answer_type

/-- `AdjudicatorFeedbackQuestion.choices_for_field`: pairs each choice with
itself as its display label. -/
def Question.choices_for_field (q : Question) : List (String × String) :=
  q.choices.map (fun x => (x, x))

/-- Length of Python `range(start, stop, step)` for a positive `step`:
`⌈(stop − start) / step⌉` clamped at zero. -/
def pyRangeLen (start stop step : Int) : Nat :=
  if start < stop then ((stop - start + step - 1) / step).toNat else 0

/-- Python `range(start, stop, step)` as a list, for a positive `step`.
(`range` itself raises only when `step = 0`; every call in this module uses a
step clamped to at least 1, proved below.) -/
def pyRange (start stop step : Int) : List Int :=
  (List.range (pyRangeLen start stop step)).map (fun (i : Nat) => start + (i : Int) * step)

/-- `AdjudicatorFeedbackQuestion.construct_number_scale(min_value, max_value)`:
`step = max((int(max_value) - int(min_value)) / 10, 1)` followed by
`list(range(int(min_value), int(max_value + 1), int(step)))`. Python's true
division followed by `int()` truncation is, after the `max` with 1, exactly
`max ((max_value - min_value) / 10) 1` in floor division: when the quotient is
at least 1 truncation and floor agree, and otherwise both sides clamp to 1. -/
def construct_number_scale (min_value max_value : Int) : List Int :=
  let step : Int := max ((max_value - min_value) / 10) 1
  pyRange min_value (max_value + 1) step

/-- The effective integer step used by `construct_number_scale`. -/
def number_scale_step (min_value max_value : Int) : Int :=
  max ((max_value - min_value) / 10) 1

/-- `django.utils.html.escape` on one character: the five HTML-special
characters are replaced by entities, everything else is kept. -/
def escapeChar (c : Char) : String :=
  if c = '&' then "&amp;"
  else if c = '<' then "&lt;"
  else if c = '>' then "&gt;"
  else if c = '"' then "&quot;"
  else if c = Char.ofNat 39 then "&#x27;"
  else String.singleton c

/-- `django.utils.html.escape` on a string (character-by-character
translation). -/
def escape (s : String) : String :=
  String.join (s.toList.map escapeChar)

/-- The choice options attached to a serialized question: either a list of
escaped choice strings or a constructed number scale. -/
inductive ChoiceOptions
| strs (l : List String)
| nums (l : List Int)
deriving DecidableEq, Repr

/-- The dict built by `AdjudicatorFeedbackQuestion.serialize()`. The
`required` field has type `AnswerType` because the source assigns
`self.answer_type` to it. -/
structure SerializedQuestion where
  text : String
  seq : Int
  type : AnswerType
  required : AnswerType
  from_team : Bool
  from_adj : Bool
  choice_options : Option ChoiceOptions
deriving DecidableEq, Repr

/-- `AdjudicatorFeedbackQuestion.serialize()`: escaped text, flags, the
`required` field populated with the answer-type code, and `choice_options`
from the choices when non-empty, else from the number scale when both bounds
are set. -/
def Question.serialize (q : Question) : SerializedQuestion :=
  { text := escape q.text
    seq := q.seq
    type := q.answer_type
    required := q.answer_type
    from_team := q.from_team
    from_adj := q.from_adj
    choice_options :=
      if q.choices ≠ [] then some (.strs (q.choices.map escape))
      else match q.min_value, q.max_value with
        | some mn, some mx => some (.nums (construct_number_scale mn mx))
        | _, _ => none }

/-- `AdjudicatorFeedbackQuestion.choices_for_number_scale`:
`construct_number_scale(self.min_value, self.max_value)`; `none` models the
`TypeError` raised when a bound is `None`. -/
def Question.choices_for_number_scale (q : Question) : Option (List Int) :=
  match q.min_value, q.max_value with
  | some mn, some mx => some (construct_number_scale mn mx)
  | _, _ => none

/-- A tournament, reduced to the one preference this module reads
(`pref('feedback_from_teams')`). -/
structure Tournament where
  pref_feedback_from_teams : String
deriving DecidableEq, Repr

/-- A round, reduced to its tournament and its configured
`feedback_weight`. -/
structure Round where
  tournament : Tournament
  feedback_weight : ℚ
deriving DecidableEq, Repr

/-- An adjudicator (participants app), reduced to identity and name. -/
structure Adjudicator where
  id : Nat
  name : String
deriving DecidableEq, Repr

/-- A team, reduced to its display short name. -/
structure Team where
  short_name : String
deriving DecidableEq, Repr

/-- A debate, with its round (`none` models an unset round) and the
adjudicator panel exposed by `debate.adjudicators`. -/
structure Debate where
  id : Nat
  round : Option Round
  adjudicators : List Adjudicator
deriving DecidableEq, Repr

/-- A `DebateAdjudicator` row (adjallocation app): an adjudicator's seat in a
debate. -/
structure DebateAdjudicator where
  adjudicator : Adjudicator
  debate : Debate
deriving DecidableEq, Repr

/-- A `DebateTeam` row (draw app): a team's side in a debate. -/
structure DebateTeam where
  team : Team
  debate : Debate
deriving DecidableEq, Repr

/-- An `AdjudicatorFeedback` row (the fields its methods read). The target
`adjudicator` is `Option` because `clean()` explicitly guards against a
dangling reference. -/
structure AdjudicatorFeedback where
  adjudicator : Option Adjudicator
  score : ℚ
  source_adjudicator : Option DebateAdjudicator
  source_team : Option DebateTeam
  ignored : Bool
deriving DecidableEq, Repr

/-- Modelled from the spec: the generic versioned-submission base class
(`results.models.Submission`, outside this module) whose `clean()` the
override tail-calls; the spec states the four checks in
`AdjudicatorFeedback.clean` are the only integrity rules enforced at the
application layer, so the base validation succeeds. -/
def Submission.clean : Except String Unit := .ok ()

/-- Modelled from the spec: `Submission._unique_unconfirm_args` (outside this
module) supplies the uniqueness key used to find the previous version to
unconfirm, which "normally includes the target adjudicator"; per the Meta
`unique_together` of `AdjudicatorFeedback` it comprises the non-version
fields. -/
def Submission.unique_unconfirm_args : List String :=
  ["adjudicator", "source_adjudicator", "source_team"]

/-- `AdjudicatorFeedback.debate`: the debate of the source adjudicator if set,
else of the source team if set, else `None`. -/
def AdjudicatorFeedback.debate (fb : AdjudicatorFeedback) : Option Debate :=
  match fb.source_adjudicator with
  | some sa => some sa.debate
  | none =>
    match fb.source_team with
    | some st => some st.debate
    | none => none

/-- `AdjudicatorFeedback.source`: display name of whichever source is set. -/
def AdjudicatorFeedback.source (fb : AdjudicatorFeedback) : Option String :=
  match fb.source_adjudicator with
  | some sa => some sa.adjudicator.name
  | none => fb.source_team.map (fun st => st.team.short_name)

/-- `AdjudicatorFeedback.round`: `self.debate.round`. The outer `none` models
the `AttributeError` raised when `debate` is `None`; the inner option is the
debate's (possibly unset) round. -/
def AdjudicatorFeedback.round (fb : AdjudicatorFeedback) : Option (Option Round) :=
  fb.debate.map (fun d => d.round)

/-- `AdjudicatorFeedback.feedback_weight`: the round's configured weight when
`self.round` is truthy, else 1; `none` models the `AttributeError` from
resolving `round` with no debate. -/
def AdjudicatorFeedback.feedback_weight (fb : AdjudicatorFeedback) : Option ℚ :=
  match fb.round with
  | none => none
  | some (some r) => some r.feedback_weight
  | some none => some 1

/-- `AdjudicatorFeedback._unique_unconfirm_args`: starts from the base key and
pops `adjudicator` when the source is a team and the tournament preference
`feedback_from_teams` is `orallist`; `none` models the `AttributeError` from
`self.source_team.debate.round` when the round is unset. -/
def AdjudicatorFeedback.unique_unconfirm_args (fb : AdjudicatorFeedback) :
    Option (List String) :=
  match fb.source_team with
  | none => some Submission.unique_unconfirm_args
  | some st =>
    match st.debate.round with
    | none => none
    | some r =>
      if r.tournament.pref_feedback_from_teams = "orallist" then
        some (Submission.unique_unconfirm_args.erase "adjudicator")
      else
        some Submission.unique_unconfirm_args

/-- `AdjudicatorFeedback.clean`: the four validation checks, in source order,
then the base class validation. The final `match` arm is unreachable: once the
source checks pass, exactly one source is set, so `debate` resolves. -/
def AdjudicatorFeedback.clean (fb : AdjudicatorFeedback) : Except String Unit :=
  if fb.source_adjudicator.isNone && fb.source_team.isNone then
    .error "Either the source adjudicator or source team wasn't specified."
  else if fb.source_adjudicator.isSome && fb.source_team.isSome then
    .error "There was both a source adjudicator and a source team."
  else if fb.adjudicator.isNone then
    .error "There is no adjudicator specified as the target for this feedback. Perhaps they were deleted?"
  else
    match fb.debate, fb.adjudicator with
    | some d, some a =>
      if a ∉ d.adjudicators then .error "Adjudicator did not see this debate."
      else Submission.clean
    | _, _ => .error "AttributeError"

/-- Django's `QuerySet.get` on `adjudicator.debateadjudicator_set` filtered by
`debate`: `ok none` models the caught `DoesNotExist`; more than one match
raises `MultipleObjectsReturned` (not caught by the source). -/
def debateadjudicator_get (rows : List DebateAdjudicator) (adj : Adjudicator)
    (d : Option Debate) : Except String (Option DebateAdjudicator) :=
  match rows.filter (fun da => decide (da.adjudicator = adj ∧ some da.debate = d)) with
  | [] => .ok none
  | [da] => .ok (some da)
  | _ => .error "MultipleObjectsReturned"

/-- `AdjudicatorFeedback.debate_adjudicator` with its `_debateadj` cache made
explicit: a read takes the cache state and returns the value together with the
updated cache; on a cache miss the seat record is resolved through
`debateadjudicator_get` over the `DebateAdjudicator` table. -/
def AdjudicatorFeedback.debate_adjudicator_read (rows : List DebateAdjudicator)
    (fb : AdjudicatorFeedback) (cache : Option (Option DebateAdjudicator)) :
    Except String (Option DebateAdjudicator × Option (Option DebateAdjudicator)) :=
  match cache with
  | some v => .ok (v, some v)
  | none =>
    match fb.adjudicator with
    | none => .error "AttributeError"
    | some adj =>
      match debateadjudicator_get rows adj fb.debate with
      | .ok v => .ok (v, some v)
      | .error e => .error e

/-- A row of one of the five answer tables: `(question, feedback, answer)`,
with the answer type as a parameter. Questions and feedbacks are referenced by
id. -/
structure AnswerRow (α : Type) where
  question : Nat
  feedback : Nat
  answer : α
deriving DecidableEq, Repr

/-- The Meta `unique_together = [('question', 'feedback')]` constraint of an
answer table: no two rows share both keys. -/
def uniqueQF {α : Type} (l : List (AnswerRow α)) : Prop :=
  List.Pairwise (fun a b => ¬(a.question = b.question ∧ a.feedback = b.feedback)) l

instance {α : Type} (l : List (AnswerRow α)) : Decidable (uniqueQF l) := by
  unfold uniqueQF; infer_instance

/-- A stored answer value, tagged by which answer table it came from. -/
inductive AnswerValue
| bool (b : Bool)
| int (n : Int)
| float (q : ℚ)
| str (s : String)
| many (l : List String)
deriving DecidableEq, Repr

/-- The five answer tables (the `*_set` reverse relations that `get_answers`
iterates). -/
structure AnswerDatabase where
  booleananswers : List (AnswerRow Bool)
  integeranswers : List (AnswerRow Int)
  floatanswers : List (AnswerRow ℚ)
  stringanswers : List (AnswerRow String)
  manyanswers : List (AnswerRow (List String))
deriving Repr

/-- `AdjudicatorFeedback.get_answers`: for each answer table, in the iteration
order of `ANSWER_CLASSES_REVERSE.keys()` (string, many, integer, float,
boolean), the rows referencing this feedback as `(question, answer)` pairs,
flattened. -/
def get_answers (db : AnswerDatabase) (fb : Nat) : List (Nat × AnswerValue) :=
  ((db.stringanswers.filter (fun r => r.feedback == fb)).map
    (fun r => (r.question, AnswerValue.str r.answer))) ++
  ((db.manyanswers.filter (fun r => r.feedback == fb)).map
    (fun r => (r.question, AnswerValue.many r.answer))) ++
  ((db.integeranswers.filter (fun r => r.feedback == fb)).map
    (fun r => (r.question, AnswerValue.int r.answer))) ++
  ((db.floatanswers.filter (fun r => r.feedback == fb)).map
    (fun r => (r.question, AnswerValue.float r.answer))) ++
  ((db.booleananswers.filter (fun r => r.feedback == fb)).map
    (fun r => (r.question, AnswerValue.bool r.answer)))

/-- Whether a table stores an answer for `(question, feedback)`. -/
def hasRow {α : Type} (l : List (AnswerRow α)) (q fb : Nat) : Bool :=
  l.any (fun r => r.question == q && r.feedback == fb)

/-- In how many of the five answer tables `(question, feedback)` has a stored
answer. -/
def numTablesWith (db : AnswerDatabase) (fb q : Nat) : Nat :=
  (if hasRow db.stringanswers q fb then 1 else 0) +
  (if hasRow db.manyanswers q fb then 1 else 0) +
  (if hasRow db.integeranswers q fb then 1 else 0) +
  (if hasRow db.floatanswers q fb then 1 else 0) +
  (if hasRow db.booleananswers q fb then 1 else 0)

/-! Concrete sample data, used to evaluate the definitions at explicit
inputs. -/

/-- A tournament whose `feedback_from_teams` preference is `orallist`. -/
def tournamentOral : Tournament := ⟨"orallist"⟩

/-- A tournament with any other `feedback_from_teams` preference. -/
def tournamentPublic : Tournament := ⟨"public"⟩

/-- A round of `tournamentPublic` with feedback weight 2. -/
def roundMain : Round := ⟨tournamentPublic, 2⟩

/-- A round of `tournamentOral`. -/
def roundOral : Round := ⟨tournamentOral, 2⟩

/-- A sample adjudicator. -/
def adjAmy : Adjudicator := ⟨1, "Amy"⟩

/-- Another sample adjudicator. -/
def adjBo : Adjudicator := ⟨2, "Bo"⟩

/-- A sample team. -/
def teamAlpha : Team := ⟨"Alpha"⟩

/-- A debate in `roundMain` with both sample adjudicators on the panel. -/
def debateMain : Debate := ⟨1, some roundMain, [adjAmy, adjBo]⟩

/-- A debate with no round set. -/
def debateNoRound : Debate := ⟨2, none, [adjAmy]⟩

/-- A debate in `roundOral`. -/
def debateOral : Debate := ⟨3, some roundOral, [adjAmy]⟩

/-- Amy's seat in `debateMain`. -/
def seatAmyMain : DebateAdjudicator := ⟨adjAmy, debateMain⟩

/-- Amy's seat in `debateNoRound`. -/
def seatAmyNoRound : DebateAdjudicator := ⟨adjAmy, debateNoRound⟩

/-- Team Alpha's side in `debateMain`. -/
def dteamAlphaMain : DebateTeam := ⟨teamAlpha, debateMain⟩

/-- Team Alpha's side in `debateOral`. -/
def dteamAlphaOral : DebateTeam := ⟨teamAlpha, debateOral⟩

/-- Feedback from team Alpha on Amy in `debateMain`. -/
def fbTeamOnAmy : AdjudicatorFeedback := ⟨some adjAmy, 75, none, some dteamAlphaMain, false⟩

/-- Feedback sourced from Amy's seat in the round-less debate. -/
def fbNoRound : AdjudicatorFeedback := ⟨some adjAmy, 70, some seatAmyNoRound, none, false⟩

/-- Feedback from team Alpha in the `orallist` tournament. -/
def fbOralTeam : AdjudicatorFeedback := ⟨some adjAmy, 60, none, some dteamAlphaOral, false⟩

/-- A single-select question with choices Yes/No. -/
def questionChoice : Question :=
  ⟨"Did you agree?", "Agree", "agree", 1, .SINGLE_SELECT, true, none, none,
    ["Yes", "No"], true, true⟩

/-- An integer-scale question with bounds 1 and 10 and no choices. -/
def questionScale : Question :=
  ⟨"Rate the adjudicator", "Rating", "rating", 2, .INTEGER_SCALE, true, some 1, some 10,
    [], true, true⟩

/-- A small answer database: one integer answer for question 5 and one string
answer for question 3, both on feedback 7. -/
def sampleAnswerDatabase : AnswerDatabase :=
  ⟨[], [⟨5, 7, 4⟩], [], [⟨3, 7, "ok"⟩], []⟩

/-! Helper lemmas. -/

/-- The length of the Python range built by `construct_number_scale` when the
bounds are ordered: one more than `(max − min) / step` in floor division. -/
theorem pyRangeLen_scale (m M : Int) (h : m ≤ M) :
    pyRangeLen m (M + 1) (max ((M - m) / 10) 1) =
      ((M - m) / (max ((M - m) / 10) 1)).toNat + 1 := by
  have hs : (1 : Int) ≤ max ((M - m) / 10) 1 := le_max_right _ _
  have hs0 : (0 : Int) < max ((M - m) / 10) 1 := lt_of_lt_of_le zero_lt_one hs
  unfold pyRangeLen
  rw [if_pos (by omega : m < M + 1)]
  have key : M + 1 - m + max ((M - m) / 10) 1 - 1 = (M - m) + 1 * max ((M - m) / 10) 1 := by
    ring
  rw [key, Int.add_mul_ediv_right _ _ (ne_of_gt hs0)]
  have hnn : 0 ≤ (M - m) / max ((M - m) / 10) 1 :=
    Int.ediv_nonneg (by omega) (le_of_lt hs0)
  omega

/-- In a list of answer rows satisfying the `(question, feedback)` uniqueness
constraint, the number of rows with a given key is 1 when such a row exists
and 0 otherwise. -/
theorem countP_key_unique {α : Type} (l : List (AnswerRow α)) (q fb : Nat)
    (h : uniqueQF l) :
    l.countP (fun r => r.question == q && r.feedback == fb) =
      if hasRow l q fb then 1 else 0 := by
  induction l with
  | nil => simp [hasRow]
  | cons r t ih =>
    rw [uniqueQF, List.pairwise_cons] at h
    obtain ⟨hr, ht⟩ := h
    have iht := ih ht
    rw [List.countP_cons]
    by_cases hm : r.question = q ∧ r.feedback = fb
    · have h0 : t.countP (fun r => r.question == q && r.feedback == fb) = 0 := by
        rw [List.countP_eq_zero]
        intro b hb
        have hb' := hr b hb
        simp only [Bool.and_eq_true, beq_iff_eq, not_and]
        intro h1 h2
        exact absurd ⟨hm.1.trans h1.symm, hm.2.trans h2.symm⟩ hb'
      have hhas : hasRow (r :: t) q fb = true := by
        simp [hasRow, hm.1, hm.2]
      simp [hhas, h0, hm.1, hm.2]
    · have hfalse : (r.question == q && r.feedback == fb) = false := by
        rw [Bool.and_eq_false_iff]
        rcases Decidable.not_and_iff_or_not.mp hm with h1 | h1
        · exact Or.inl (beq_eq_false_iff_ne.mpr h1)
        · exact Or.inr (beq_eq_false_iff_ne.mpr h1)
      have hhas : hasRow (r :: t) q fb = hasRow t q fb := by
        simp [hasRow, List.any_cons, hfalse]
      simp [iht, hhas, hfalse]

/-- One answer table's contribution to `get_answers`: under the uniqueness
constraint, it contributes one entry for a question exactly when it stores an
answer for that `(question, feedback)` pair. -/
theorem countP_table {α : Type} (g : AnswerRow α → AnswerValue)
    (l : List (AnswerRow α)) (q fb : Nat) (h : uniqueQF l) :
    ((l.filter (fun r => r.feedback == fb)).map
        (fun r => (r.question, g r))).countP (fun p => p.1 == q) =
      if hasRow l q fb then 1 else 0 := by
  rw [List.countP_map, ← countP_key_unique l q fb h, List.countP_filter]
  rfl

/-! Theorems for the claims. -/

/-- C3: the claim that for min ≤ max the scale runs "from min to max
inclusive, in at most 10 steps" is false on the code: at min = 0, max = 25 the
step is 2, the value 25 = max is not in the output, and the output has 13
values (12 steps). -/
theorem construct_number_scale_claim_counterexample :
    (0 : Int) ≤ 25 ∧ (25 : Int) ∉ construct_number_scale 0 25 ∧
      (construct_number_scale 0 25).length = 13 := by decide

/-- C3 (amended): for min ≤ max, `construct_number_scale` returns the
arithmetic progression min, min + step, … with step =
max(⌊(max − min) / 10⌋, 1), containing exactly the ⌊(max − min) / step⌋ + 1
values min + i·step that do not exceed max (so max itself appears only when
step divides max − min); every value lies in [min, max], and the two
spec examples hold: (1, 10) gives 1…10 and (0, 100) gives 0, 10, …, 100. -/
theorem construct_number_scale_amended :
    (∀ m M : Int, m ≤ M →
      construct_number_scale m M =
        (List.range (((M - m) / number_scale_step m M).toNat + 1)).map
          (fun (i : Nat) => m + (i : Int) * number_scale_step m M)) ∧
    (∀ m M : Int, m ≤ M → ∀ x ∈ construct_number_scale m M, m ≤ x ∧ x ≤ M) ∧
    construct_number_scale 1 10 = [1, 2, 3, 4, 5, 6, 7, 8, 9, 10] ∧
    construct_number_scale 0 100 = [0, 10, 20, 30, 40, 50, 60, 70, 80, 90, 100] := by
  refine ⟨?_, ?_, by decide, by decide⟩
  · intro m M h
    show pyRange m (M + 1) (max ((M - m) / 10) 1) = _
    unfold pyRange
    rw [pyRangeLen_scale m M h]
    rfl
  · intro m M h x hx
    have hs : (1 : Int) ≤ max ((M - m) / 10) 1 := le_max_right _ _
    have hs0 : (0 : Int) < max ((M - m) / 10) 1 := lt_of_lt_of_le zero_lt_one hs
    have hx' : x ∈ pyRange m (M + 1) (max ((M - m) / 10) 1) := hx
    unfold pyRange at hx'
    rw [pyRangeLen_scale m M h] at hx'
    simp only [List.mem_map, List.mem_range] at hx'
    obtain ⟨i, hi, rfl⟩ := hx'
    have hnn : 0 ≤ (M - m) / max ((M - m) / 10) 1 :=
      Int.ediv_nonneg (by omega) (le_of_lt hs0)
    constructor
    · have : (0 : Int) ≤ (i : Int) * max ((M - m) / 10) 1 :=
        mul_nonneg (Int.natCast_nonneg i) (le_of_lt hs0)
      omega
    · have hi' : (i : Int) ≤ (M - m) / max ((M - m) / 10) 1 := by omega
      have := (Int.le_ediv_iff_mul_le hs0).mp hi'
      omega

/-- C3 witness: the amended characterization evaluated at min = 0, max = 7. -/
theorem construct_number_scale_amended_witness :
    construct_number_scale 0 7 =
      (List.range ((((7 : Int) - 0) / number_scale_step 0 7).toNat + 1)).map
        (fun (i : Nat) => (0 : Int) + (i : Int) * number_scale_step 0 7) :=
  construct_number_scale_amended.1 0 7 (by decide)

/-- C10: when max < min, `construct_number_scale` returns the empty list
(hence a sequence of at most one element), and the computed step is still at
least 1, so the `range` call cannot raise. -/
theorem construct_number_scale_degenerate (m M : Int) (h : M < m) :
    construct_number_scale m M = [] ∧ (construct_number_scale m M).length ≤ 1 ∧
      1 ≤ number_scale_step m M := by
  have he : construct_number_scale m M = [] := by
    have hlen : pyRangeLen m (M + 1) (max ((M - m) / 10) 1) = 0 := by
      unfold pyRangeLen
      rw [if_neg (by omega : ¬ m < M + 1)]
    show pyRange m (M + 1) (max ((M - m) / 10) 1) = []
    unfold pyRange
    rw [hlen]
    rfl
  exact ⟨he, by rw [he]; decide, le_max_right _ _⟩

/-- C10 witness: the degenerate case evaluated at min = 5, max = 3. -/
theorem construct_number_scale_degenerate_witness :
    construct_number_scale 5 3 = [] ∧ (construct_number_scale 5 3).length ≤ 1 ∧
      1 ≤ number_scale_step 5 3 :=
  construct_number_scale_degenerate 5 3 (by decide)

/-- C5: `answer_type_class` is the `ANSWER_CLASSES` lookup; the lookup sends
both boolean codes to the boolean table, both integer codes to the integer
table, float to the float table, text, long-text and single-select to the
string table, and multi-select to the array table; `ANSWER_CLASSES_REVERSE`
lists a type under a class exactly when `ANSWER_CLASSES` maps the type to that
class; and flattening the reverse dict covers every answer type exactly
once. -/
theorem answer_classes_reverse_consistent :
    (∀ q : Question, q.answer_type_class = ANSWER_CLASSES q.answer_type) ∧
    ANSWER_CLASSES .BOOLEAN_CHECKBOX = .BooleanAnswer ∧
    ANSWER_CLASSES .BOOLEAN_SELECT = .BooleanAnswer ∧
    ANSWER_CLASSES .INTEGER_TEXTBOX = .IntegerAnswer ∧
    ANSWER_CLASSES .INTEGER_SCALE = .IntegerAnswer ∧
    ANSWER_CLASSES .FLOAT = .FloatAnswer ∧
    ANSWER_CLASSES .TEXT = .StringAnswer ∧
    ANSWER_CLASSES .LONGTEXT = .StringAnswer ∧
    ANSWER_CLASSES .SINGLE_SELECT = .StringAnswer ∧
    ANSWER_CLASSES .MULTIPLE_SELECT = .ManyAnswer ∧
    (∀ t c, t ∈ ANSWER_CLASSES_REVERSE c ↔ ANSWER_CLASSES t = c) ∧
    (∀ t : AnswerType,
      ((ANSWER_CLASSES_REVERSE_keys.map ANSWER_CLASSES_REVERSE).flatten).count t = 1) :=
  ⟨fun _ => rfl, rfl, rfl, rfl, rfl, rfl, rfl, rfl, rfl, rfl, by decide, by decide⟩

/-- C4: under the per-table `(question, feedback)` uniqueness constraints,
`get_answers` — which concatenates, over all five answer tables, the rows
referencing this feedback — contains, for each question, as many entries as
there are tables storing an answer to it for this feedback; in particular,
exactly one entry when the question has an answer in exactly one type
table. -/
theorem get_answers_unique_entries (db : AnswerDatabase) (fb q : Nat)
    (h1 : uniqueQF db.stringanswers) (h2 : uniqueQF db.manyanswers)
    (h3 : uniqueQF db.integeranswers) (h4 : uniqueQF db.floatanswers)
    (h5 : uniqueQF db.booleananswers) :
    (get_answers db fb).countP (fun p => p.1 == q) = numTablesWith db fb q ∧
      (numTablesWith db fb q = 1 →
        (get_answers db fb).countP (fun p => p.1 == q) = 1) := by
  have hmain : (get_answers db fb).countP (fun p => p.1 == q) = numTablesWith db fb q := by
    unfold get_answers numTablesWith
    rw [List.countP_append, List.countP_append, List.countP_append, List.countP_append,
      countP_table _ _ _ _ h1, countP_table _ _ _ _ h2, countP_table _ _ _ _ h3,
      countP_table _ _ _ _ h4, countP_table _ _ _ _ h5]
  exact ⟨hmain, fun h => hmain.trans h⟩

/-- C4 witness: in the sample database, question 3 has a single (string-table)
answer on feedback 7 and `get_answers` lists it exactly once. -/
theorem get_answers_unique_entries_witness :
    (get_answers sampleAnswerDatabase 7).countP (fun p => p.1 == 3) = 1 :=
  (get_answers_unique_entries sampleAnswerDatabase 7 3 (by decide) (by decide)
    (by decide) (by decide) (by decide)).2 (by decide)

/-- C1: `clean` succeeds exactly when one source is set and the other is not,
the target adjudicator is set, and the target adjudicator is on the referenced
debate's panel; in every other configuration it raises a validation error
(missing source, dual source, missing target, or target not on the panel). -/
theorem clean_accepts_iff (fb : AdjudicatorFeedback) :
    fb.clean = .ok () ↔
      ((fb.source_adjudicator.isSome ∧ fb.source_team = none) ∨
        (fb.source_adjudicator = none ∧ fb.source_team.isSome)) ∧
      (∃ a d, fb.adjudicator = some a ∧ fb.debate = some d ∧ a ∈ d.adjudicators) := by
  obtain ⟨adj, score, sa, st, ign⟩ := fb
  cases sa <;> cases st <;> cases adj <;>
    simp [AdjudicatorFeedback.clean, AdjudicatorFeedback.debate, Submission.clean]

/-- C2: any feedback accepted by `clean` has exactly one of the two source
references set. -/
theorem clean_accepted_exactly_one_source (fb : AdjudicatorFeedback) (u : Unit)
    (h : fb.clean = .ok u) :
    (fb.source_adjudicator.isSome ∧ fb.source_team = none) ∨
      (fb.source_adjudicator = none ∧ fb.source_team.isSome) := by
  obtain ⟨adj, score, sa, st, ign⟩ := fb
  cases sa <;> cases st <;> simp_all [AdjudicatorFeedback.clean]

/-- C2 witness: the sample team-sourced feedback is accepted by `clean` and
has exactly one source. -/
theorem clean_accepted_exactly_one_source_witness :
    (fbTeamOnAmy.source_adjudicator.isSome ∧ fbTeamOnAmy.source_team = none) ∨
      (fbTeamOnAmy.source_adjudicator = none ∧ fbTeamOnAmy.source_team.isSome) :=
  clean_accepted_exactly_one_source fbTeamOnAmy () rfl

/-- C6: `serialize` stores the answer-type code in the `required` field; when
the question has choices it emits the escaped choices and never the number
scale; and it emits the number scale exactly when the choices are empty and
both bounds are set. -/
theorem serialize_spec (q : Question) :
    (q.serialize.required = q.answer_type) ∧
    (q.choices ≠ [] →
      q.serialize.choice_options = some (.strs (q.choices.map escape))) ∧
    (q.choices = [] → ∀ mn mx, q.min_value = some mn → q.max_value = some mx →
      q.serialize.choice_options = some (.nums (construct_number_scale mn mx))) ∧
    (∀ l, q.serialize.choice_options = some (.nums l) →
      q.choices = [] ∧ ∃ mn mx, q.min_value = some mn ∧ q.max_value = some mx ∧
        l = construct_number_scale mn mx) := by
  refine ⟨rfl, ?_, ?_, ?_⟩
  · intro h
    simp [Question.serialize, h]
  · intro h mn mx hmn hmx
    simp [Question.serialize, h, hmn, hmx]
  · intro l hl
    by_cases h : q.choices = []
    · cases hmn : q.min_value with
      | none => simp [Question.serialize, h, hmn] at hl
      | some mn =>
        cases hmx : q.max_value with
        | none => simp [Question.serialize, h, hmn, hmx] at hl
        | some mx =>
          simp only [Question.serialize, h, hmn, hmx, ne_eq, not_true_eq_false,
            if_false, Option.some_inj, ChoiceOptions.nums.injEq] at hl
          exact ⟨h, mn, mx, rfl, rfl, hl.symm⟩
    · simp [Question.serialize, h] at hl

/-- C6 witness: the Yes/No question serializes with its type code in
`required` and escaped choices (no number scale); the bounded scale question
serializes with the constructed 1…10 scale. -/
theorem serialize_spec_witness :
    questionChoice.serialize.required = questionChoice.answer_type ∧
    questionChoice.serialize.choice_options = some (.strs ["Yes", "No"]) ∧
    questionScale.serialize.choice_options =
      some (.nums [1, 2, 3, 4, 5, 6, 7, 8, 9, 10]) := by
  refine ⟨(serialize_spec questionChoice).1, ?_, ?_⟩
  · have h := (serialize_spec questionChoice).2.1 (by decide)
    rw [h]; decide
  · have h := (serialize_spec questionScale).2.2.1 rfl 1 10 rfl rfl
    rw [h]; decide

/-- C7: the unconfirm-uniqueness key equals the base key with `adjudicator`
removed exactly when the source is a team and the tournament preference
`feedback_from_teams` is `orallist`; in every other case the key is the base
key, which contains `adjudicator`. -/
theorem unique_unconfirm_args_spec (fb : AdjudicatorFeedback) (l : List String)
    (h : fb.unique_unconfirm_args = some l) :
    (l = Submission.unique_unconfirm_args.erase "adjudicator" ↔
      ∃ st r, fb.source_team = some st ∧ st.debate.round = some r ∧
        r.tournament.pref_feedback_from_teams = "orallist") ∧
    (l = Submission.unique_unconfirm_args.erase "adjudicator" → "adjudicator" ∉ l) ∧
    (¬(∃ st r, fb.source_team = some st ∧ st.debate.round = some r ∧
        r.tournament.pref_feedback_from_teams = "orallist") →
      l = Submission.unique_unconfirm_args ∧ "adjudicator" ∈ l) := by
  have hne : Submission.unique_unconfirm_args ≠
      Submission.unique_unconfirm_args.erase "adjudicator" := by decide
  have hmem : "adjudicator" ∈ Submission.unique_unconfirm_args := by decide
  have hnot : "adjudicator" ∉ Submission.unique_unconfirm_args.erase "adjudicator" := by
    decide
  cases hst : fb.source_team with
  | none =>
    simp only [AdjudicatorFeedback.unique_unconfirm_args, hst] at h
    obtain rfl : Submission.unique_unconfirm_args = l := Option.some_inj.mp h
    refine ⟨⟨fun he => absurd he hne, ?_⟩, fun he => absurd he hne, fun _ => ⟨rfl, hmem⟩⟩
    rintro ⟨st, r, hst', -, -⟩
    simp [hst] at hst'
  | some st =>
    simp only [AdjudicatorFeedback.unique_unconfirm_args, hst] at h
    cases hr : st.debate.round with
    | none =>
      simp only [hr] at h
      exact absurd h (by simp)
    | some r =>
      simp only [hr] at h
      by_cases hp : r.tournament.pref_feedback_from_teams = "orallist"
      · rw [if_pos hp] at h
        obtain rfl : Submission.unique_unconfirm_args.erase "adjudicator" = l :=
          Option.some_inj.mp h
        refine ⟨⟨fun _ => ⟨st, r, rfl, hr, hp⟩, fun _ => rfl⟩, fun _ => hnot, ?_⟩
        intro hc
        exact absurd ⟨st, r, rfl, hr, hp⟩ hc
      · rw [if_neg hp] at h
        obtain rfl : Submission.unique_unconfirm_args = l := Option.some_inj.mp h
        refine ⟨⟨fun he => absurd he hne, ?_⟩, fun he => absurd he hne,
          fun _ => ⟨rfl, hmem⟩⟩
        rintro ⟨st', r', hst', hr', hp'⟩
        obtain rfl : st = st' := Option.some_inj.mp hst'
        rw [hr] at hr'
        obtain rfl : r = r' := Option.some_inj.mp hr'
        exact absurd hp' hp

/-- C7 witness: team feedback in the `orallist` tournament gets its key with
`adjudicator` removed. -/
theorem unique_unconfirm_args_spec_witness :
    "adjudicator" ∉ Submission.unique_unconfirm_args.erase "adjudicator" ∧
      fbOralTeam.unique_unconfirm_args =
        some (Submission.unique_unconfirm_args.erase "adjudicator") :=
  ⟨(unique_unconfirm_args_spec fbOralTeam
      (Submission.unique_unconfirm_args.erase "adjudicator") rfl).2.1 rfl, rfl⟩

/-- C8: for a feedback whose source resolves to a debate, `feedback_weight` is
the configured weight of that debate's round, and 1 when the debate has no
round. -/
theorem feedback_weight_spec (fb : AdjudicatorFeedback) (d : Debate)
    (hd : fb.debate = some d) :
    (∀ r, d.round = some r → fb.feedback_weight = some r.feedback_weight) ∧
      (d.round = none → fb.feedback_weight = some 1) := by
  constructor
  · intro r hr
    simp [AdjudicatorFeedback.feedback_weight, AdjudicatorFeedback.round, hd, hr]
  · intro hr
    simp [AdjudicatorFeedback.feedback_weight, AdjudicatorFeedback.round, hd, hr]

/-- C8 witness: the sample team feedback inherits `roundMain`'s weight 2, and
the feedback on the round-less debate defaults to 1. -/
theorem feedback_weight_spec_witness :
    fbTeamOnAmy.feedback_weight = some roundMain.feedback_weight ∧
      fbNoRound.feedback_weight = some 1 :=
  ⟨(feedback_weight_spec fbTeamOnAmy debateMain rfl).1 roundMain rfl,
    (feedback_weight_spec fbNoRound debateNoRound rfl).2 rfl⟩

/-- C9: with a set target adjudicator and a resolvable debate, a first read of
`debate_adjudicator` yields the unique matching seat record when the table has
one, yields `none` without failing when the table has none, and fills the
cache so that a subsequent read returns the same value. -/
theorem debate_adjudicator_spec (rows : List DebateAdjudicator)
    (fb : AdjudicatorFeedback) (adj : Adjudicator) (d : Debate)
    (ha : fb.adjudicator = some adj) (hd : fb.debate = some d) :
    (∀ da, rows.filter
        (fun x => decide (x.adjudicator = adj ∧ some x.debate = some d)) = [da] →
      fb.debate_adjudicator_read rows none = .ok (some da, some (some da))) ∧
    (rows.filter
        (fun x => decide (x.adjudicator = adj ∧ some x.debate = some d)) = [] →
      fb.debate_adjudicator_read rows none = .ok (none, some none)) ∧
    (∀ v c, fb.debate_adjudicator_read rows none = .ok (v, c) →
      fb.debate_adjudicator_read rows c = .ok (v, c)) := by
  refine ⟨?_, ?_, ?_⟩
  · intro da hfil
    have hget : debateadjudicator_get rows adj (some d) = .ok (some da) := by
      unfold debateadjudicator_get
      rw [hfil]
    simp only [AdjudicatorFeedback.debate_adjudicator_read, ha, hd, hget]
  · intro hfil
    have hget : debateadjudicator_get rows adj (some d) = .ok none := by
      unfold debateadjudicator_get
      rw [hfil]
    simp only [AdjudicatorFeedback.debate_adjudicator_read, ha, hd, hget]
  · intro v c h
    simp only [AdjudicatorFeedback.debate_adjudicator_read, ha] at h
    cases hget : debateadjudicator_get rows adj fb.debate with
    | ok w =>
      rw [hget] at h
      have hpair : (w, some w) = (v, c) := Except.ok.inj h
      obtain ⟨rfl, rfl⟩ : w = v ∧ some w = c :=
        ⟨congrArg Prod.fst hpair, congrArg Prod.snd hpair⟩
      rfl
    | error e => rw [hget] at h; exact absurd h (by simp)

/-- C9 witness: with the single seat row for Amy in the main debate, the first
read resolves and caches it; with no rows, the read yields `none`. -/
theorem debate_adjudicator_spec_witness :
    fbTeamOnAmy.debate_adjudicator_read [seatAmyMain] none =
        .ok (some seatAmyMain, some (some seatAmyMain)) ∧
      fbTeamOnAmy.debate_adjudicator_read [] none = .ok (none, some none) :=
  ⟨(debate_adjudicator_spec [seatAmyMain] fbTeamOnAmy adjAmy debateMain rfl rfl).1
      seatAmyMain (by decide),
    (debate_adjudicator_spec [] fbTeamOnAmy adjAmy debateMain rfl rfl).2.1 rfl⟩

end Tabbycat
